import Mathlib

/-!
Verification of the waveform-reconstruction subsystem of `src/model/utils.py`
(functions `invert_spectrogram`, `griffin_lim`, `spectrogram2wav`).

Modelling conventions:
* numpy arrays of reals are functions from an index type into `ℝ`, complex
  arrays are functions into `ℂ`; elementwise operations are pointwise;
* Python floats are modelled by exact real numbers; the configuration values
  that are only converted with `int()` (sample rate, frame shift and frame
  length in seconds) are modelled by rationals so that the conversion stays
  computable;
* the library transforms `librosa.stft` / `librosa.istft` are external
  collaborators: they appear as explicit function parameters (taking the same
  integer parameters the source passes them), never as concrete definitions;
  `librosa.effects.trim` is likewise an abstract parameter (the source keeps
  only the first component of its result);
* the `astype(np.float32)` cast at the very end of `spectrogram2wav` is the
  identity on the real-number model and is not represented.
-/

/-- Python `int(q)`: truncation toward zero, as applied by the source to
`hop_length * sr` and `win_length * sr` in `spectrogram2wav`. -/
def pyInt (q : ℚ) : ℤ :=
  if q < 0 then -(Int.floor (-q)) else Int.floor q

/-- The parameter processing at the top of `spectrogram2wav`
(`hop_length = int(hop_length * sr)`, `win_length = int(win_length * sr)`,
`n_fft = win_length`), returned as `(n_fft, hop_length, win_length)`. -/
def transformParams (sr hop_length win_length : ℚ) : ℤ × ℤ × ℤ :=
  (pyInt (win_length * sr), pyInt (hop_length * sr), pyInt (win_length * sr))

/-- The same parameter construction, given an error-capable return type so
that a rejection of invalid values, had the source performed one, would show
up as `Except.error`.  The source contains no validation and no `raise`
between receiving the configuration values and using them, so every input is
mapped to `Except.ok`. -/
def makeTransformParams (sr hop_length win_length : ℚ) :
    Except String (ℤ × ℤ × ℤ) :=
  Except.ok (transformParams sr hop_length win_length)

/-- The `1e-8` floor of `griffin_lim`
(`phase = est / np.maximum(1e-8, np.abs(est))`). -/
noncomputable def glEps : ℝ := 1 / 10 ^ 8

/-- One entry of `phase = est / np.maximum(1e-8, np.abs(est))`
(line 178 of `src/model/utils.py`). -/
noncomputable def phasePoint (e : ℂ) : ℂ :=
  e / Complex.ofReal (max glEps (Complex.abs e))

/-- One entry of `X_best = spectrogram * phase` applied after the phase
division (lines 178-179 of `src/model/utils.py`): the magnitude-reset step. -/
noncomputable def glUpdatePoint (m : ℝ) (e : ℂ) : ℂ :=
  (m : ℂ) * phasePoint e

/-- `np.clip(x, lo, hi)`. -/
noncomputable def np_clip (x lo hi : ℝ) : ℝ := min hi (max lo x)

/-- The de-normalization scaling of `spectrogram2wav`
(`mag = (np.clip(mag, 0, 1) * max_db) - max_db + ref_db`). -/
noncomputable def denormalize_db (max_db ref_db x : ℝ) : ℝ :=
  np_clip x 0 1 * max_db - max_db + ref_db

/-- The full de-normalization of one spectrogram entry: the clip-and-scale
step followed by `mag = np.power(10.0, mag * 0.05)`. -/
noncomputable def denormalize (max_db ref_db x : ℝ) : ℝ :=
  (10 : ℝ) ^ (denormalize_db max_db ref_db x * 0.05)

/-- De-normalization with the clip step removed; used only to state that the
clip is absorbing on inputs already in `[0, 1]`. -/
noncomputable def denormalize_noclip (max_db ref_db x : ℝ) : ℝ :=
  (10 : ℝ) ^ ((x * max_db - max_db + ref_db) * 0.05)

/-- `invert_spectrogram(spectrogram, win_length, hop_length)`: the source
forwards to `librosa.istft(spectrogram, hop_length, win_length=win_length,
window="hann")`; here `istft` is the abstract library transform taking
`(hop_length, win_length, spectrogram)`. -/
def invert_spectrogram {ι : Type} (istft : ℤ → ℤ → (ι → ℂ) → ℕ → ℂ)
    (spectrogram : ι → ℂ) (win_length hop_length : ℤ) : ℕ → ℂ :=
  istft hop_length win_length spectrogram

/-- One iteration of the `griffin_lim` loop (lines 176-179):
`X_t = invert_spectrogram(X_best, ...)`;
`est = librosa.stft(X_t, n_fft, hop_length, win_length=win_length)`;
`phase = est / np.maximum(1e-8, np.abs(est))`;
`X_best = spectrogram * phase`. -/
noncomputable def glStep {ι : Type} (istft : ℤ → ℤ → (ι → ℂ) → ℕ → ℂ)
    (stft : ℤ → ℤ → ℤ → (ℕ → ℂ) → ι → ℂ) (n_fft hop_length win_length : ℤ)
    (spectrogram : ι → ℝ) (X_best : ι → ℂ) : ι → ℂ :=
  fun i =>
    glUpdatePoint (spectrogram i)
      (stft n_fft hop_length win_length
        (invert_spectrogram istft X_best win_length hop_length) i)

/-- `griffin_lim(spectrogram, iter_vocoder, n_fft, hop_length, win_length)`:
deep-copy of the input as the initial estimate, `iter_vocoder` iterations of
`glStep`, one final inverse transform, and `y = np.real(X_t)`. -/
noncomputable def griffin_lim {ι : Type} (istft : ℤ → ℤ → (ι → ℂ) → ℕ → ℂ)
    (stft : ℤ → ℤ → ℤ → (ℕ → ℂ) → ι → ℂ) (spectrogram : ι → ℝ)
    (iter_vocoder : ℕ) (n_fft hop_length win_length : ℤ) : ℕ → ℝ :=
  fun t =>
    (invert_spectrogram istft
        ((glStep istft stft n_fft hop_length win_length spectrogram)^[iter_vocoder]
          (fun i => (spectrogram i : ℂ)))
        win_length hop_length t).re

/-- The iterates `X_0, X_1, ...` of the Phase Estimator exactly as the spec
words them (section 4.2): `X_0 = M` (zero phase); for `i = 1 .. iterations`,
`waveform_i = synthesize(X_{i-1}, params)`, `Y_i = analyze(waveform_i,
params)`, `phase_i = Y_i / max(1e-8, |Y_i|)`, `X_i = M ⊙ phase_i`.  Written
from the spec text, to be compared with the loop of `griffin_lim`. -/
noncomputable def phase_iter_spec {ι : Type} (istft : ℤ → ℤ → (ι → ℂ) → ℕ → ℂ)
    (stft : ℤ → ℤ → ℤ → (ℕ → ℂ) → ι → ℂ) (M : ι → ℝ)
    (n_fft hop_length win_length : ℤ) : ℕ → ι → ℂ
  | 0 => fun i => (M i : ℂ)
  | n + 1 => fun i =>
      (M i : ℂ) *
        (stft n_fft hop_length win_length
            (istft hop_length win_length
              (phase_iter_spec istft stft M n_fft hop_length win_length n)) i /
          Complex.ofReal
            (max glEps
              (Complex.abs
                (stft n_fft hop_length win_length
                  (istft hop_length win_length
                    (phase_iter_spec istft stft M n_fft hop_length win_length n)) i))))

/-- The Phase Estimator output as the spec words it (section 4.2, step 3):
one final `synthesize(X_iterations, params)` whose real part is the output
waveform. -/
noncomputable def phase_estimator_spec {ι : Type}
    (istft : ℤ → ℤ → (ι → ℂ) → ℕ → ℂ)
    (stft : ℤ → ℤ → ℤ → (ℕ → ℂ) → ι → ℂ) (M : ι → ℝ) (iterations : ℕ)
    (n_fft hop_length win_length : ℤ) : ℕ → ℝ :=
  fun t =>
    (istft hop_length win_length
        (phase_iter_spec istft stft M n_fft hop_length win_length iterations) t).re

/-- `scipy.signal.lfilter(b, a, x)`: the standard direct-form IIR difference
equation `a[0]*y[n] = sum_k b[k]*x[n-k] - sum_{k>=1} a[k]*y[n-k]`, with zero
initial conditions; coefficients past the end of `b` or `a` contribute
nothing.  This is the documented semantics of the external library call made
on line 209 of the source (`signal.lfilter([1], [1, -preemphasis], wav)`). -/
noncomputable def lfilter (b a : List ℝ) (x : ℕ → ℝ) : ℕ → ℝ
  | n =>
    (1 / a.headD 1) *
      (Finset.sum (Finset.range (n + 1)) (fun k => b.getD k 0 * x (n - k)) -
        Finset.sum (Finset.Icc 1 n).attach
          (fun k => a.getD k.1 0 * lfilter b a x (n - k.1)))
termination_by n => n
decreasing_by
  have hk := k.2
  simp only [Finset.mem_Icc] at hk
  omega

/-- The de-emphasis recursion exactly as the spec words it (section 4.4,
step 1): `output[n] = input[n] + preemphasis_coefficient * output[n-1]`, with
`output[-1] = 0`.  Written from the spec text, to be compared with the
`lfilter` call of the source. -/
noncomputable def deemph_spec (p : ℝ) (x : ℕ → ℝ) : ℕ → ℝ
  | 0 => x 0
  | n + 1 => x (n + 1) + p * deemph_spec p x n

/-- `spectrogram2wav(mag, max_db, ref_db, preemphasis, power, sr, hop_length,
win_length)`: parameter conversion via `transformParams`, transpose
(`mag = mag.T`), de-normalization, exponent sharpening (`mag ** power`),
`griffin_lim(..., 100, ...)`, de-emphasis (`signal.lfilter([1],
[1, -preemphasis], wav)`), and silence trimming (`librosa.effects.trim`,
abstract, first component).  `mag` has shape (time `τ`, frequency `φ`); the
transposed array is indexed by `φ × τ`. -/
noncomputable def spectrogram2wav {τ φ : Type}
    (istft : ℤ → ℤ → (φ × τ → ℂ) → ℕ → ℂ)
    (stft : ℤ → ℤ → ℤ → (ℕ → ℂ) → φ × τ → ℂ) (trim : (ℕ → ℝ) → ℕ → ℝ)
    (mag : τ → φ → ℝ) (max_db ref_db preemphasis power : ℝ)
    (sr hop_length win_length : ℚ) : ℕ → ℝ :=
  trim
    (lfilter [1] [1, -preemphasis]
      (griffin_lim istft stft
        (fun ft => denormalize max_db ref_db (mag ft.2 ft.1) ^ power) 100
        (transformParams sr hop_length win_length).1
        (transformParams sr hop_length win_length).2.1
        (transformParams sr hop_length win_length).2.2))

lemma glEps_pos : (0 : ℝ) < glEps := by norm_num [glEps]

lemma abs_glUpdatePoint (m : ℝ) (hm : 0 ≤ m) (e : ℂ) :
    Complex.abs (glUpdatePoint m e) =
      m * (Complex.abs e / max glEps (Complex.abs e)) := by
  unfold glUpdatePoint phasePoint
  rw [map_mul, map_div₀, Complex.abs_ofReal, Complex.abs_ofReal,
    abs_of_nonneg hm, abs_of_nonneg (le_trans glEps_pos.le (le_max_left _ _))]

lemma glIterate_eq_phase_iter_spec {ι : Type}
    (istft : ℤ → ℤ → (ι → ℂ) → ℕ → ℂ)
    (stft : ℤ → ℤ → ℤ → (ℕ → ℂ) → ι → ℂ) (M : ι → ℝ)
    (n_fft hop_length win_length : ℤ) (n : ℕ) :
    (glStep istft stft n_fft hop_length win_length M)^[n]
        (fun i => (M i : ℂ)) =
      phase_iter_spec istft stft M n_fft hop_length win_length n := by
  induction n with
  | zero => rfl
  | succ n ih =>
    rw [Function.iterate_succ_apply', ih]
    rfl

lemma griffin_lim_eq_phase_estimator_spec {ι : Type}
    (istft : ℤ → ℤ → (ι → ℂ) → ℕ → ℂ)
    (stft : ℤ → ℤ → ℤ → (ℕ → ℂ) → ι → ℂ) (M : ι → ℝ) (iterations : ℕ)
    (n_fft hop_length win_length : ℤ) :
    griffin_lim istft stft M iterations n_fft hop_length win_length =
      phase_estimator_spec istft stft M iterations n_fft hop_length win_length := by
  funext t
  unfold griffin_lim phase_estimator_spec invert_spectrogram
  rw [glIterate_eq_phase_iter_spec]

lemma lfilter_b_sum (x : ℕ → ℝ) (n : ℕ) :
    Finset.sum (Finset.range (n + 1))
        (fun k => List.getD [(1 : ℝ)] k 0 * x (n - k)) = x n := by
  rw [Finset.sum_eq_single 0]
  · simp
  · intro b _ hb
    rw [List.getD_eq_default]
    · ring
    · simpa using Nat.one_le_iff_ne_zero.mpr hb
  · intro h
    exact absurd (Finset.mem_range.mpr (Nat.succ_pos n)) h

lemma lfilter_de_zero (p : ℝ) (x : ℕ → ℝ) :
    lfilter [1] [1, -p] x 0 = x 0 := by
  rw [lfilter]
  rw [show Finset.Icc 1 0 = (∅ : Finset ℕ) from Finset.Icc_eq_empty (by omega)]
  rw [lfilter_b_sum]
  simp

lemma lfilter_de_succ (p : ℝ) (x : ℕ → ℝ) (n : ℕ) :
    lfilter [1] [1, -p] x (n + 1) =
      x (n + 1) + p * lfilter [1] [1, -p] x n := by
  rw [lfilter]
  rw [lfilter_b_sum, Finset.sum_attach (Finset.Icc 1 (n + 1))
    (fun k => List.getD [(1 : ℝ), -p] k 0 * lfilter [1] [1, -p] x (n + 1 - k))]
  rw [Finset.sum_eq_single 1]
  · simp only [List.getD, List.getD_eq_getElem?_getD, List.headD]
    norm_num
  · intro b hb hb1
    rw [List.getD_eq_default]
    · ring
    · rw [Finset.mem_Icc] at hb
      simp only [List.length_cons, List.length_nil]
      omega
  · intro h
    exact absurd (Finset.mem_Icc.mpr ⟨le_refl 1, by omega⟩) h

lemma lfilter_eq_deemph_spec (p : ℝ) (x : ℕ → ℝ) (n : ℕ) :
    lfilter [1] [1, -p] x n = deemph_spec p x n := by
  induction n with
  | zero => rw [lfilter_de_zero]; rfl
  | succ n ih => rw [lfilter_de_succ, ih]; rfl

lemma max_glEps_pos (r : ℝ) : 0 < max glEps r :=
  lt_of_lt_of_le glEps_pos (le_max_left _ _)

lemma abs_phasePoint_le_one (e : ℂ) : Complex.abs (phasePoint e) ≤ 1 := by
  unfold phasePoint
  rw [map_div₀, Complex.abs_ofReal,
    abs_of_nonneg (max_glEps_pos (Complex.abs e)).le]
  exact div_le_one_of_le₀ (le_max_right _ _) (max_glEps_pos _).le

lemma abs_glUpdatePoint_le (m : ℝ) (hm : 0 ≤ m) (e : ℂ) :
    Complex.abs (glUpdatePoint m e) ≤ m := by
  rw [abs_glUpdatePoint m hm e]
  exact mul_le_of_le_one_right hm
    (div_le_one_of_le₀ (le_max_right _ _) (max_glEps_pos _).le)

lemma abs_glUpdatePoint_eq_iff (m : ℝ) (hm : 0 ≤ m) (e : ℂ) :
    Complex.abs (glUpdatePoint m e) = m ↔ glEps ≤ Complex.abs e ∨ m = 0 := by
  rw [abs_glUpdatePoint m hm e]
  constructor
  · intro h
    by_cases hm0 : m = 0
    · exact Or.inr hm0
    · refine Or.inl ?_
      have h1 : Complex.abs e / max glEps (Complex.abs e) = 1 :=
        mul_left_cancel₀ hm0 (h.trans (mul_one m).symm)
      have h2 : Complex.abs e = max glEps (Complex.abs e) :=
        (div_eq_one_iff_eq (max_glEps_pos _).ne').mp h1
      exact max_eq_right_iff.mp h2.symm
  · intro h
    rcases h with h | h
    · rw [max_eq_right h,
        div_self (ne_of_gt (lt_of_lt_of_le glEps_pos h)), mul_one]
    · rw [h, zero_mul]

lemma abs_glUpdatePoint_of_ge (m : ℝ) (hm : 0 ≤ m) (e : ℂ)
    (he : glEps ≤ Complex.abs e) : Complex.abs (glUpdatePoint m e) = m :=
  (abs_glUpdatePoint_eq_iff m hm e).mpr (Or.inl he)

/-- Claim C1 (corrected): after the magnitude-reset step of a Griffin-Lim
iteration, the elementwise magnitude of the new estimate equals the target
magnitude `M` at every entry where the re-analysis magnitude reaches the
`1e-8` floor; the claim's unconditional equality fails below the floor. -/
theorem glStep_magnitude_reset {ι : Type} (istft : ℤ → ℤ → (ι → ℂ) → ℕ → ℂ)
    (stft : ℤ → ℤ → ℤ → (ℕ → ℂ) → ι → ℂ) (n_fft hop_length win_length : ℤ)
    (M : ι → ℝ) (X_best : ι → ℂ) (i : ι) (hm : 0 ≤ M i)
    (he : glEps ≤ Complex.abs (stft n_fft hop_length win_length
        (invert_spectrogram istft X_best win_length hop_length) i)) :
    Complex.abs (glStep istft stft n_fft hop_length win_length M X_best i) = M i :=
  abs_glUpdatePoint_of_ge _ hm _ he

/-- Claim C1, witness: a concrete iteration step whose re-analysis magnitude
is `1`, above the floor, where the reset magnitude equals the target `2`. -/
theorem glStep_magnitude_reset_witness :
    Complex.abs (glStep (fun _ _ _ => fun _ => (0 : ℂ))
        (fun _ _ _ _ => fun _ => (1 : ℂ)) 4 2 4 (fun _ : Unit => (2 : ℝ))
        (fun _ => 0) ()) = 2 :=
  glStep_magnitude_reset _ _ 4 2 4 _ _ () (by norm_num)
    (by simp [glEps]; norm_num)

/-- Claim C1, counterexample: with target magnitude `1` at an entry whose
re-analysis value is `0` (below the `1e-8` floor), the reset magnitude is
`0`, not `1`, so the claimed exact equality is false. -/
theorem glStep_magnitude_reset_cex :
    Complex.abs (glStep (fun _ _ _ => fun _ => (0 : ℂ))
        (fun _ _ _ _ => fun _ => (0 : ℂ)) 4 2 4 (fun _ : Unit => (1 : ℝ))
        (fun _ => 1) ()) ≠ 1 := by
  simp [glStep, glUpdatePoint, phasePoint]

/-- Claim C2 (confirmed): `griffin_lim` runs a fixed number of iterations
with no early stopping, each iteration being inverse transform, forward
transform, floored phase extraction and magnitude reset, followed by one
final inverse transform whose real part is returned; and `spectrogram2wav`
invokes it with exactly 100 iterations.  Stated as equality with the
estimator written from the spec's own wording. -/
theorem griffin_lim_structure :
    (∀ (ι : Type) (istft : ℤ → ℤ → (ι → ℂ) → ℕ → ℂ)
        (stft : ℤ → ℤ → ℤ → (ℕ → ℂ) → ι → ℂ) (M : ι → ℝ) (iterations : ℕ)
        (n_fft hop_length win_length : ℤ),
        griffin_lim istft stft M iterations n_fft hop_length win_length =
          phase_estimator_spec istft stft M iterations n_fft hop_length win_length) ∧
    (∀ (τ φ : Type) (istft : ℤ → ℤ → (φ × τ → ℂ) → ℕ → ℂ)
        (stft : ℤ → ℤ → ℤ → (ℕ → ℂ) → φ × τ → ℂ) (trim : (ℕ → ℝ) → ℕ → ℝ)
        (mag : τ → φ → ℝ) (max_db ref_db preemphasis power : ℝ)
        (sr hop_length win_length : ℚ),
        spectrogram2wav istft stft trim mag max_db ref_db preemphasis power
            sr hop_length win_length =
          trim (lfilter [1] [1, -preemphasis]
            (phase_estimator_spec istft stft
              (fun ft => denormalize max_db ref_db (mag ft.2 ft.1) ^ power) 100
              (transformParams sr hop_length win_length).1
              (transformParams sr hop_length win_length).2.1
              (transformParams sr hop_length win_length).2.2))) := by
  constructor
  · intro ι istft stft M iterations n_fft hop_length win_length
    exact griffin_lim_eq_phase_estimator_spec istft stft M iterations
      n_fft hop_length win_length
  · intro τ φ istft stft trim mag max_db ref_db preemphasis power sr
      hop_length win_length
    unfold spectrogram2wav
    rw [griffin_lim_eq_phase_estimator_spec]

/-- Claim C3 (confirmed): the denormalizer of `spectrogram2wav` clips to
`[0, 1]`, rescales by `max_db` and `ref_db`, and exponentiates, so each
output entry equals `10 ^ ((clip(x, 0, 1) * max_db - max_db + ref_db) / 20)`. -/
theorem denormalize_formula (max_db ref_db x : ℝ) :
    denormalize max_db ref_db x =
      (10 : ℝ) ^ ((min 1 (max 0 x) * max_db - max_db + ref_db) / 20) := by
  unfold denormalize denormalize_db np_clip
  congr 1
  rw [show (0.05 : ℝ) = 1 / 20 from by norm_num]
  ring

/-- Claim C4 (confirmed): an all-zero magnitude spectrogram is a fixed point
of the Griffin-Lim iteration, so for any iteration count the output waveform
is all zero, given that the external transforms map zero to zero. -/
theorem griffin_lim_zero {ι : Type} (istft : ℤ → ℤ → (ι → ℂ) → ℕ → ℂ)
    (stft : ℤ → ℤ → ℤ → (ℕ → ℂ) → ι → ℂ) (iterations : ℕ)
    (n_fft hop_length win_length : ℤ)
    (h1 : istft hop_length win_length (fun _ => 0) = fun _ => 0)
    (_h2 : stft n_fft hop_length win_length (fun _ => 0) = fun _ => 0) :
    griffin_lim istft stft (fun _ => (0 : ℝ)) iterations
      n_fft hop_length win_length = fun _ => 0 := by
  have hzero : ∀ X : ι → ℂ,
      glStep istft stft n_fft hop_length win_length (fun _ => (0 : ℝ)) X =
        fun _ => 0 := by
    intro X
    funext i
    simp [glStep, glUpdatePoint]
  have hiter :
      (glStep istft stft n_fft hop_length win_length (fun _ => (0 : ℝ)))^[iterations]
        (fun _ => ((0 : ℝ) : ℂ)) = fun _ => 0 := by
    cases iterations with
    | zero => funext i; simp
    | succ n => rw [Function.iterate_succ_apply']; exact hzero _
  funext t
  have hfin : (istft hop_length win_length
      ((glStep istft stft n_fft hop_length win_length (fun _ => (0 : ℝ)))^[iterations]
        (fun _ => ((0 : ℝ) : ℂ))) t).re = 0 := by
    rw [hiter, h1]
    rfl
  exact hfin

/-- Claim C4, witness: with zero-preserving concrete transforms and 3
iterations, the all-zero spectrogram yields the all-zero waveform. -/
theorem griffin_lim_zero_witness :
    griffin_lim (fun _ _ _ => fun _ => (0 : ℂ)) (fun _ _ _ _ => fun _ => (0 : ℂ))
        (fun _ : Unit => (0 : ℝ)) 3 4 2 4 = fun _ => 0 :=
  griffin_lim_zero _ _ 3 4 2 4 rfl rfl

/-- Claim C5 (confirmed): the denormalizer's clip is absorbing — on inputs
already in `[0, 1]` denormalization agrees with the clip-free formula, and
any input at least `1` (in particular `1.5`) denormalizes exactly like `1`,
for every `max_db` and `ref_db`. -/
theorem denormalize_clip_absorb (max_db ref_db x y : ℝ)
    (hx0 : 0 ≤ x) (hx1 : x ≤ 1) (hy : 1 ≤ y) :
    denormalize max_db ref_db x = denormalize_noclip max_db ref_db x ∧
    denormalize max_db ref_db y = denormalize max_db ref_db 1 ∧
    denormalize max_db ref_db (3 / 2) = denormalize max_db ref_db 1 := by
  have hc : ∀ z : ℝ, 1 ≤ z → np_clip z 0 1 = 1 := by
    intro z hz
    unfold np_clip
    rw [max_eq_right (le_trans zero_le_one hz), min_eq_left hz]
  refine ⟨?_, ?_, ?_⟩
  · unfold denormalize denormalize_noclip denormalize_db np_clip
    rw [max_eq_right hx0, min_eq_right hx1]
  · unfold denormalize denormalize_db
    rw [hc y hy, hc 1 le_rfl]
  · unfold denormalize denormalize_db
    rw [hc (3 / 2) (by norm_num), hc 1 le_rfl]

/-- Claim C5, witness: the absorption facts at `x = 1/2`, `y = 3/2`,
`max_db = 100`, `ref_db = 20`. -/
theorem denormalize_clip_absorb_witness :
    denormalize 100 20 (1 / 2) = denormalize_noclip 100 20 (1 / 2) ∧
    denormalize 100 20 (3 / 2) = denormalize 100 20 1 ∧
    denormalize 100 20 (3 / 2) = denormalize 100 20 1 :=
  denormalize_clip_absorb 100 20 (1 / 2) (3 / 2) (by norm_num) (by norm_num)
    (by norm_num)

/-- Claim C6 (confirmed): the de-emphasis step of `spectrogram2wav` — the
`lfilter` call with numerator `[1]` and denominator `[1, -preemphasis]` —
computes the IIR recursion `output[n] = input[n] + preemphasis * output[n-1]`
with `output[-1] = 0`, and it is applied to the Griffin-Lim output before the
silence trimming. -/
theorem spectrogram2wav_deemphasis :
    (∀ (p : ℝ) (x : ℕ → ℝ) (n : ℕ),
        lfilter [1] [1, -p] x n = deemph_spec p x n) ∧
    (∀ (τ φ : Type) (istft : ℤ → ℤ → (φ × τ → ℂ) → ℕ → ℂ)
        (stft : ℤ → ℤ → ℤ → (ℕ → ℂ) → φ × τ → ℂ) (trim : (ℕ → ℝ) → ℕ → ℝ)
        (mag : τ → φ → ℝ) (max_db ref_db preemphasis power : ℝ)
        (sr hop_length win_length : ℚ),
        spectrogram2wav istft stft trim mag max_db ref_db preemphasis power
            sr hop_length win_length =
          trim (lfilter [1] [1, -preemphasis]
            (griffin_lim istft stft
              (fun ft => denormalize max_db ref_db (mag ft.2 ft.1) ^ power) 100
              (transformParams sr hop_length win_length).1
              (transformParams sr hop_length win_length).2.1
              (transformParams sr hop_length win_length).2.2))) := by
  constructor
  · exact lfilter_eq_deemph_spec
  · intro τ φ istft stft trim mag max_db ref_db preemphasis power sr
      hop_length win_length
    rfl

/-- Claim C7 (corrected): the source performs no validation of the numeric
configuration values — parameter construction always succeeds, so invalid
values are never rejected. -/
theorem makeTransformParams_never_rejects (sr hop_length win_length : ℚ) :
    (makeTransformParams sr hop_length win_length).isOk = true := rfl

/-- Claim C7, counterexample: a non-positive hop length (here `-1` seconds at
sample rate `1`, giving the non-positive converted hop `int(-1 * 1)`) is not
rejected: construction still succeeds. -/
theorem makeTransformParams_cex :
    (makeTransformParams 1 (-1) 4).isOk = true ∧ pyInt ((-1 : ℚ) * 1) ≤ 0 :=
  ⟨rfl, by norm_num [pyInt]⟩

/-- Claim C10 (corrected): the phase factor has magnitude at most `1`, so the
updated estimate satisfies `|X_i| ≤ M` elementwise for non-negative `M`, with
equality exactly at entries where `|est| ≥ 1e-8` or where `M = 0`. -/
theorem glUpdate_magnitude_bound (m : ℝ) (e : ℂ) (hm : 0 ≤ m) :
    Complex.abs (phasePoint e) ≤ 1 ∧
    Complex.abs (glUpdatePoint m e) ≤ m ∧
    (Complex.abs (glUpdatePoint m e) = m ↔ glEps ≤ Complex.abs e ∨ m = 0) :=
  ⟨abs_phasePoint_le_one e, abs_glUpdatePoint_le m hm e,
    abs_glUpdatePoint_eq_iff m hm e⟩

/-- Claim C10, witness: the bound and the equality characterization at
`m = 2`, `est = 1`. -/
theorem glUpdate_magnitude_bound_witness :
    Complex.abs (phasePoint 1) ≤ 1 ∧
    Complex.abs (glUpdatePoint 2 1) ≤ 2 ∧
    (Complex.abs (glUpdatePoint 2 1) = 2 ↔
      glEps ≤ Complex.abs 1 ∨ (2 : ℝ) = 0) :=
  glUpdate_magnitude_bound 2 1 (by norm_num)

/-- Claim C10, counterexample: at an entry with `M = 0` and `est = 0` the
updated magnitude equals `M` even though `|est|` is below the `1e-8` floor,
so equality does not hold *exactly* at the entries with `|est| ≥ 1e-8`. -/
theorem glUpdate_magnitude_bound_cex :
    Complex.abs (glUpdatePoint 0 0) = 0 ∧ ¬ glEps ≤ Complex.abs (0 : ℂ) := by
  constructor
  · simp [glUpdatePoint, phasePoint]
  · simp only [map_zero]
    norm_num [glEps]
